import Mathlib

/-!
Shallow embedding of the benoctopus/pkg repository: the `future` package
(Future, WaitAll, WaitTimeout from src/future/future.go) and the `sh`
package (Builder/Opt/Arg from src/sh/sh.go, cmdImpl from the cmd source
file).  Go machine-level concerns (goroutine scheduling, channel selects)
are made explicit: a `select` between two ready channels is resolved by a
scheduler choice parameter, goroutine interleavings are explicit event
traces, and the external process launcher (an out-of-scope collaborator,
`os/exec`) is abstracted as an observed launch outcome.
-/

/-- Go `error` values that occur in this repository: `context.Canceled`,
`context.DeadlineExceeded`, `*exec.ExitError` (with its `ExitCode()`), and
any other non-nil error.  A Go `error` variable that may be nil is modelled
as `Option GoError`. -/
inductive GoError where
  | canceled
  | deadlineExceeded
  | exitError (code : Int)
  | other (msg : String)
deriving DecidableEq

/-- Go `context.Context` values as built by this repository:
`context.Background()`, `context.WithCancel(parent)`,
`context.WithTimeout(parent, d)` (duration in abstract units). -/
inductive Ctx where
  | background
  | withCancel (parent : Ctx)
  | withTimeout (parent : Ctx) (d : Nat)
deriving DecidableEq

/-- The observation a caller makes of a completed future: the stored
result slot, the stored error slot (source: `futureImpl.res` / `.err`,
returned by `Wait`), and the context the future was created under
(source: `futureImpl.ctx`). -/
structure FutObs (T : Type) where
  res : T
  err : Option GoError
  ctx : Ctx
deriving DecidableEq

/-- Loop body of `WaitAll` (src/future/future.go lines 103-118).  At
iteration `i` the Go `select` races `fu.Done()` against the derived
scope's `ctx.Done()`; `sel i = true` models the scheduler taking the
`ctx.Done()` branch at iteration `i` (the derived scope is cancelled and
chosen), `sel i = false` models `fu.Done()` being taken.  `ctxErr` is the
value of `ctx.Err()` for the derived scope once cancelled.  Output:
(results returned, error returned, whether the `fu.Cancel()` loop over
every future of the input list ran). -/
def waitAllGo {T : Type} (sel : Nat → Bool) (ctxErr : GoError) :
    Nat → List (FutObs T) → List T → Option (List T) × Option GoError × Bool
  | _, [], acc => (some acc.reverse, none, false)
  | i, fu :: rest, acc =>
    if sel i then (none, some ctxErr, true)
    else
      match fu.err with
      | some e => (none, some e, false)
      | none => waitAllGo sel ctxErr (i + 1) rest (fu.res :: acc)

/-- `WaitAll` (src/future/future.go lines 97-121): iterates the supplied
futures in order, collecting results; on a future error returns
`(nil, err)`; on the derived scope's cancellation cancels every future of
the input list and returns `(nil, ctx.Err())`. -/
def WaitAll {T : Type} (sel : Nat → Bool) (ctxErr : GoError)
    (fus : List (FutObs T)) : Option (List T) × Option GoError × Bool :=
  waitAllGo sel ctxErr 0 fus []

/-- Everything observable about one `WaitTimeout` call: the returned
`(r, err)` pair, whether `fu.Cancel()` was invoked, and the scope the
call derived for its timeout. -/
structure WaitTimeoutOut (T : Type) where
  retVal : T
  retErr : Option GoError
  cancelCalled : Bool
  scope : Ctx
deriving DecidableEq

/-- `WaitTimeout` (src/future/future.go lines 123-134): derives
`context.WithTimeout(context.Background(), d)` and races `fu.Done()`
against the timeout.  `timeoutFirst = true` models the timeout branch of
the `select` being taken; `zero` is the zero value of the result type
(the named return `r`), and `ctx.Err()` of an expired timeout scope is
`context.DeadlineExceeded`. -/
def WaitTimeout {T : Type} (zero : T) (d : Nat) (fu : FutObs T)
    (timeoutFirst : Bool) : WaitTimeoutOut T :=
  let scope := Ctx.withTimeout Ctx.background d
  if timeoutFirst then ⟨zero, some GoError.deadlineExceeded, true, scope⟩
  else ⟨fu.res, fu.err, false, scope⟩

/-- Events in the life of one `futureImpl`: a caller invokes `Start()`, a
caller invokes `Cancel()`, or the goroutine spawned by the first `Start`
actually runs the `execute` body (src/future/future.go lines 63-72). -/
inductive FutEv where
  | start
  | cancel
  | grun
deriving DecidableEq

/-- State of one `futureImpl` (src/future/future.go lines 18-29) together
with the bookkeeping that makes the dynamics observable: `id` stands for
the reference identity of the heap object, `fn` is the task specification
(a function of the observed cancellation flag of its context),
`started` is the consumed-state of `sync.Once`, `schedCount` counts how
many times the `once.Do` body spawned the `execute` goroutine, `pending`
records a spawned goroutine that has not yet run, `execCount` counts runs
of the `execute` body, and `doneClosed` is whether `close(fu.done)` has
happened.  `res = none` models the still-zero result slot. -/
structure FutState (T : Type) where
  id : Nat
  fn : Bool → T × Option GoError
  ctxCancelled : Bool
  started : Bool
  schedCount : Nat
  pending : Bool
  execCount : Nat
  doneClosed : Bool
  res : Option T
  err : Option GoError

/-- `New` (src/future/future.go lines 76-85): a fresh, unstarted future
with an open `done` channel and a derived cancellation scope. -/
def newFut {T : Type} (i : Nat) (fn : Bool → T × Option GoError) :
    FutState T :=
  ⟨i, fn, false, false, 0, false, 0, false, none, none⟩

/-- `futureImpl.Start` (src/future/future.go lines 31-36): `once.Do`
spawns the `execute` goroutine on the first call only; the receiver `fu`
itself is returned (modelled by its reference identity `id`). -/
def futStart {T : Type} (s : FutState T) : FutState T × Nat :=
  if s.started then (s, s.id)
  else
    ({ s with
        started := true
        schedCount := s.schedCount + 1
        pending := true }, s.id)

/-- One scheduling step of the future state machine.  `grun` is the
spawned goroutine running `execute`: it calls `fn` with the current
cancellation observation, writes the result and error slots under the
lock, and closes `done` (the `defer` fires after the write). -/
def futStep {T : Type} (s : FutState T) : FutEv → FutState T
  | FutEv.start => (futStart s).1
  | FutEv.cancel => { s with ctxCancelled := true }
  | FutEv.grun =>
    if s.pending then
      { s with
          pending := false
          execCount := s.execCount + 1
          res := some (s.fn s.ctxCancelled).1
          err := (s.fn s.ctxCancelled).2
          doneClosed := true }
    else s

/-- Run a trace of events against a future state. -/
def futRun {T : Type} (s : FutState T) (evs : List FutEv) : FutState T :=
  evs.foldl futStep s

/-- `n` successive `Start()` calls on the same future. -/
def futStartIter {T : Type} : Nat → FutState T → FutState T
  | 0, s => s
  | n + 1, s => futStartIter n (futStart s).1

/-- `futureImpl.Wait` (src/future/future.go lines 42-47): `<-fu.done`
blocks until the channel is closed, then the slots are read.  `none`
models the caller staying blocked; `Wait` performs no state change (in
particular no implicit `Start`). -/
def futWaitObs {T : Type} (s : FutState T) :
    Option (Option T × Option GoError) :=
  if s.doneClosed then some (s.res, s.err) else none

/-- A component of a command line (src/sh/sh.go): an `Opt` holds a `Key`
and an optional `Value` (the Go `Value any` is kept as its
`fmt.Sprintf` rendering, which is all `Opt.Items` ever uses of it); an
`Arg` holds a positional value. -/
inductive CmdComponent where
  | opt (key : String) (value : Option String)
  | arg (value : String)
deriving DecidableEq

/-- `Opt.Items` (src/sh/sh.go lines 332-341) and `Arg.Items` (lines
356-358): an option with a value renders as key then value; a bare
option renders as its key, or nothing when the key is empty; an argument
renders as itself. -/
def CmdComponent.Items : CmdComponent → List String
  | CmdComponent.opt k (some v) => [k, v]
  | CmdComponent.opt k none => if k = "" then [] else [k]
  | CmdComponent.arg v => [v]

/-- `Builder` (src/sh/sh.go lines 185-188): a command name plus its
accumulated components. -/
structure Builder where
  Cmd : String
  components : List CmdComponent
deriving DecidableEq

/-- `Builder.Items` (src/sh/sh.go lines 192-204): the command name
followed by every component's items, appended in order. -/
def Builder.Items (b : Builder) : List String :=
  b.components.foldl (fun items c => items ++ c.Items) [b.Cmd]

/-- `Builder.OptB` (src/sh/sh.go lines 225-237): appends a bare option,
silently skipping an empty flag. -/
def Builder.OptB (s : Builder) (flag : String) : Builder :=
  if flag = "" then s
  else { s with components := s.components ++ [CmdComponent.opt flag none] }

/-- `Builder.OptV` (src/sh/sh.go lines 241-254): appends an option with a
value, silently skipping an empty flag. -/
def Builder.OptV (s : Builder) (flag : String) (value : String) : Builder :=
  if flag = "" then s
  else { s with
    components := s.components ++ [CmdComponent.opt flag (some value)] }

/-- `Builder.Arg` (src/sh/sh.go lines 258-265): appends a positional
argument. -/
def Builder.Arg (s : Builder) (value : String) : Builder :=
  { s with components := s.components ++ [CmdComponent.arg value] }

/-- `resultImpl` (cmd source, lines 202-206): the normalized exit code
and the captured output buffers at completion. -/
structure ResultImpl where
  exitCode : Int
  stdout : String
  stderr : String
deriving DecidableEq

/-- What the out-of-scope process launcher (`exec.Cmd.Run`, cmd source
line 316) is observed to do for this stage: the error it returns (nil,
an `*exec.ExitError`, or some other failure such as a spawn error or an
abnormal termination), and the bytes it wrote into the stage's capture
buffers by the time it returned. -/
structure LaunchOutcome where
  err : Option GoError
  stdoutBytes : String
  stderrBytes : String
deriving DecidableEq

/-- Exit-code normalization of `cmdImpl.execute` (cmd source, lines
317-324): `0` when `cmd.Run()` returned nil, the `ExitCode()` of an
`*exec.ExitError`, and the sentinel `-1` for any other error. -/
def normalizeExitCode : Option GoError → Int
  | none => 0
  | some (GoError.exitError c) => c
  | some _ => -1

/-- Everything `cmdImpl.execute` leaves behind: the stored `cm.result`,
the stored `cm.err`, and whether an external process spawn was attempted
at all. -/
structure ExecOut where
  result : ResultImpl
  err : Option GoError
  spawned : Bool
deriving DecidableEq

/-- `cmdImpl.execute` (cmd source, lines 277-336).  `up` is the
observation of the upstream stage: `none` when the stage has no parent,
`some (r, e)` for `cm.parent.Wait()` returning result `r` and error `e`.
On an upstream error the stage stores the synthetic result
`{exitCode: -1, stdout: [], stderr: []}` and the upstream's error and
returns without spawning; otherwise it runs the external process
(abstracted by `launch`) and stores the normalized exit code together
with the capture buffers' contents. -/
def cmdExecute (up : Option (ResultImpl × Option GoError))
    (launch : LaunchOutcome) : ExecOut :=
  match up with
  | some (_, some e) =>
    ⟨⟨-1, "", ""⟩, some e, false⟩
  | _ =>
    ⟨⟨normalizeExitCode launch.err, launch.stdoutBytes, launch.stderrBytes⟩,
      launch.err, true⟩

/-- `cmdImpl.Run` (cmd source, lines 244-247): calls `execute` directly
and returns the stored `(cm.result, cm.err)`. -/
def cmdRun (up : Option (ResultImpl × Option GoError))
    (launch : LaunchOutcome) : ResultImpl × Option GoError :=
  let ex := cmdExecute up launch
  (ex.result, ex.err)

/-- Return value of `cmdImpl.Wait` (cmd source, lines 249-262) once the
stage is terminal: if a parent exists and `cm.parent.Wait()` returned a
non-nil error, Wait returns the parent's pair; otherwise it returns the
stage's own stored `(cm.result, cm.err)`. -/
def cmdWait (parentOut : Option (ResultImpl × Option GoError))
    (ownResult : ResultImpl) (ownErr : Option GoError) :
    ResultImpl × Option GoError :=
  match parentOut with
  | some (r, some e) => (r, some e)
  | _ => (ownResult, ownErr)

/-- Invocations that can hit one `cmdImpl` (no parent): `Start()`
(cmd source, lines 222-232), the goroutine it spawned running `execute`,
`Run()` (lines 244-247) which calls `execute` directly, and `Wait()`
(lines 249-262) whose first action is `cm.Start()`. -/
inductive CmdEv where
  | start
  | grun
  | runCall
  | waitCall
deriving DecidableEq

/-- Latch-relevant state of one `cmdImpl`: the `sync.Once` consumed flag,
a spawned-but-not-yet-run goroutine, how many times the `execute` body
ran, and how many times `close(cm.done)` was performed (a second close
panics in Go). -/
structure CmdMState where
  started : Bool
  pending : Bool
  execCount : Nat
  closeCount : Nat
deriving DecidableEq

/-- The `once.Do(go cm.execute)` of `cmdImpl.Start` (cmd source, lines
227-229). -/
def cmdMStart (s : CmdMState) : CmdMState :=
  if s.started then s else { s with started := true, pending := true }

/-- Effect of one run of the `execute` body on the latch state: the body
runs and its deferred `close(cm.done)` fires. -/
def cmdExecStep (s : CmdMState) : CmdMState :=
  { s with execCount := s.execCount + 1, closeCount := s.closeCount + 1 }

/-- One step of the `cmdImpl` latch state machine.  `Run()` calls
`execute` directly, outside the `once` latch. -/
def cmdMStep (s : CmdMState) : CmdEv → CmdMState
  | CmdEv.start => cmdMStart s
  | CmdEv.waitCall => cmdMStart s
  | CmdEv.grun => if s.pending then cmdExecStep { s with pending := false } else s
  | CmdEv.runCall => cmdExecStep s

/-- A freshly built `cmdImpl` (src/sh/sh.go lines 384-397): latch unused,
no goroutine, nothing executed. -/
def cmdMInit : CmdMState := ⟨false, false, 0, 0⟩

/-- Run a trace of invocations against a freshly built `cmdImpl`. -/
def cmdMRun (evs : List CmdEv) : CmdMState := evs.foldl cmdMStep cmdMInit

/-- Number of `Run()` invocations in a trace. -/
def countRun : List CmdEv → Nat
  | [] => 0
  | e :: t => (if e = CmdEv.runCall then 1 else 0) + countRun t

/-- Potential of a latch state: executions already performed, plus the
pending goroutine, plus the not-yet-consumed latch. -/
def cmdPhi (s : CmdMState) : Nat :=
  s.execCount + (if s.pending then 1 else 0) + (if s.started then 0 else 1)

/-- Invariant of a future whose `Start` has taken effect: the latch is
consumed, exactly one goroutine spawn happened, and executions performed
plus the still-pending spawn never exceed one. -/
def futInv {T : Type} (s : FutState T) : Prop :=
  s.started = true ∧ s.schedCount = 1 ∧
  s.execCount + (if s.pending then 1 else 0) ≤ 1

/-- Invariant of a future on which `Start` was never invoked: latch
untouched, nothing spawned, nothing executed, `done` still open. -/
def futFresh {T : Type} (s : FutState T) : Prop :=
  s.started = false ∧ s.schedCount = 0 ∧ s.pending = false ∧
  s.execCount = 0 ∧ s.doneClosed = false

theorem waitAllGo_cons_ctx {T : Type} (sel : Nat → Bool) (ctxErr : GoError)
    (i : Nat) (fu : FutObs T) (rest : List (FutObs T)) (acc : List T)
    (h : sel i = true) :
    waitAllGo sel ctxErr i (fu :: rest) acc = (none, some ctxErr, true) := by
  simp [waitAllGo, h]

theorem waitAllGo_cons_err {T : Type} (sel : Nat → Bool) (ctxErr : GoError)
    (i : Nat) (fu : FutObs T) (rest : List (FutObs T)) (acc : List T)
    (e : GoError) (h : sel i = false) (he : fu.err = some e) :
    waitAllGo sel ctxErr i (fu :: rest) acc = (none, some e, false) := by
  simp [waitAllGo, h, he]

theorem waitAllGo_cons_ok {T : Type} (sel : Nat → Bool) (ctxErr : GoError)
    (i : Nat) (fu : FutObs T) (rest : List (FutObs T)) (acc : List T)
    (h : sel i = false) (he : fu.err = none) :
    waitAllGo sel ctxErr i (fu :: rest) acc =
      waitAllGo sel ctxErr (i + 1) rest (fu.res :: acc) := by
  simp [waitAllGo, h, he]

theorem waitAllGo_futErr {T : Type} (sel : Nat → Bool) (ctxErr : GoError)
    (fu : FutObs T) (e : GoError) (suf : List (FutObs T))
    (pre : List (FutObs T)) (i : Nat) (acc : List T)
    (hsel : ∀ k, k < pre.length → sel (i + k) = false)
    (hok : ∀ g, g ∈ pre → g.err = none)
    (hj : sel (i + pre.length) = false) (he : fu.err = some e) :
    waitAllGo sel ctxErr i (pre ++ fu :: suf) acc = (none, some e, false) := by
  induction pre generalizing i acc with
  | nil =>
    have hi : sel i = false := by simpa using hj
    simpa using waitAllGo_cons_err sel ctxErr i fu suf acc e hi he
  | cons g pre ih =>
    have h0 : sel i = false := by simpa using hsel 0 (Nat.succ_pos _)
    have hg : g.err = none := hok g (List.mem_cons_self _ _)
    rw [List.cons_append, waitAllGo_cons_ok sel ctxErr i g _ acc h0 hg]
    apply ih
    · intro k hk
      rw [show i + 1 + k = i + (k + 1) by omega]
      exact hsel (k + 1) (by simpa using Nat.succ_lt_succ hk)
    · intro g2 hg2
      exact hok g2 (List.mem_cons_of_mem _ hg2)
    · rw [show i + 1 + pre.length = i + (g :: pre).length by simp; omega]
      exact hj

theorem waitAllGo_ctxCancel {T : Type} (sel : Nat → Bool) (ctxErr : GoError)
    (fu : FutObs T) (suf : List (FutObs T))
    (pre : List (FutObs T)) (i : Nat) (acc : List T)
    (hsel : ∀ k, k < pre.length → sel (i + k) = false)
    (hok : ∀ g, g ∈ pre → g.err = none)
    (hj : sel (i + pre.length) = true) :
    waitAllGo sel ctxErr i (pre ++ fu :: suf) acc = (none, some ctxErr, true) := by
  induction pre generalizing i acc with
  | nil =>
    have hi : sel i = true := by simpa using hj
    simpa using waitAllGo_cons_ctx sel ctxErr i fu suf acc hi
  | cons g pre ih =>
    have h0 : sel i = false := by simpa using hsel 0 (Nat.succ_pos _)
    have hg : g.err = none := hok g (List.mem_cons_self _ _)
    rw [List.cons_append, waitAllGo_cons_ok sel ctxErr i g _ acc h0 hg]
    apply ih
    · intro k hk
      rw [show i + 1 + k = i + (k + 1) by omega]
      exact hsel (k + 1) (by simpa using Nat.succ_lt_succ hk)
    · intro g2 hg2
      exact hok g2 (List.mem_cons_of_mem _ hg2)
    · rw [show i + 1 + pre.length = i + (g :: pre).length by simp; omega]
      exact hj

theorem waitAllGo_cancel_sound {T : Type} (sel : Nat → Bool) (ctxErr : GoError)
    (l : List (FutObs T)) :
    ∀ (i : Nat) (acc : List T),
      (waitAllGo sel ctxErr i l acc).2.2 = true →
      (waitAllGo sel ctxErr i l acc).1 = none ∧
      (waitAllGo sel ctxErr i l acc).2.1 = some ctxErr := by
  induction l with
  | nil =>
    intro i acc h
    simp [waitAllGo] at h
  | cons fu rest ih =>
    intro i acc h
    by_cases hi : sel i = true
    · rw [waitAllGo_cons_ctx sel ctxErr i fu rest acc hi]
      exact ⟨rfl, rfl⟩
    · have hi2 : sel i = false := by simpa using hi
      cases hfe : fu.err with
      | some e =>
        rw [waitAllGo_cons_err sel ctxErr i fu rest acc e hi2 hfe] at h
        simp at h
      | none =>
        rw [waitAllGo_cons_ok sel ctxErr i fu rest acc hi2 hfe] at h ⊢
        exact ih (i + 1) (fu.res :: acc) h

/-- C1: `WaitAll` examines the futures in the order supplied; when a
future with a non-nil error is reached before the derived scope's
cancellation fires, it returns nil results together with exactly that
future's error and `Cancel` is invoked on no future; `Cancel` is invoked
on every future of the input list if and only if the terminating event
was the derived scope's own cancellation, in which case the scope's
cancellation error is returned. -/
theorem waitAll_fail_fast_cancel_iff {T : Type} (sel : Nat → Bool)
    (ctxErr : GoError) (pre suf : List (FutObs T)) (fu : FutObs T)
    (hsel : ∀ k, k < pre.length → sel k = false)
    (hok : ∀ g, g ∈ pre → g.err = none) :
    (∀ e : GoError, sel pre.length = false → fu.err = some e →
      WaitAll sel ctxErr (pre ++ fu :: suf) = (none, some e, false)) ∧
    (sel pre.length = true →
      WaitAll sel ctxErr (pre ++ fu :: suf) = (none, some ctxErr, true)) ∧
    (∀ l : List (FutObs T), (WaitAll sel ctxErr l).2.2 = true →
      (WaitAll sel ctxErr l).1 = none ∧
      (WaitAll sel ctxErr l).2.1 = some ctxErr) := by
  refine ⟨?_, ?_, ?_⟩
  · intro e hj he
    exact waitAllGo_futErr sel ctxErr fu e suf pre 0 []
      (fun k hk => by simpa using hsel k hk)
      hok (by simpa using hj) he
  · intro hj
    exact waitAllGo_ctxCancel sel ctxErr fu suf pre 0 []
      (fun k hk => by simpa using hsel k hk)
      hok (by simpa using hj)
  · intro l
    exact waitAllGo_cancel_sound sel ctxErr l 0 []

theorem waitAll_fail_fast_cancel_iff_witness :
    ((fun _ : Nat => false) 1 = false ∧
      (FutObs.mk 7 (some (GoError.other "boom")) Ctx.background).err =
        some (GoError.other "boom")) ∧
    WaitAll (fun _ => false) GoError.canceled
      [⟨5, none, Ctx.background⟩,
       ⟨7, some (GoError.other "boom"), Ctx.background⟩,
       ⟨9, none, Ctx.background⟩] =
      (none, some (GoError.other "boom"), false) :=
  ⟨⟨rfl, rfl⟩,
    (waitAll_fail_fast_cancel_iff (fun _ => false) GoError.canceled
      [⟨5, none, Ctx.background⟩] [⟨9, none, Ctx.background⟩]
      ⟨7, some (GoError.other "boom"), Ctx.background⟩
      (fun _ _ => rfl) (by decide)).1 (GoError.other "boom") rfl rfl⟩

/-- C2 counterexample: two `Run()` invocations on the same freshly built
stage execute the body of `execute` twice (and perform `close(cm.done)`
twice, which panics in Go), because `cmdImpl.Run` calls `execute`
directly, bypassing the `sync.Once` latch used by `Start`. -/
theorem cmd_execute_run_twice_cex :
    (cmdMRun [CmdEv.runCall, CmdEv.runCall]).execCount = 2 ∧
    (cmdMRun [CmdEv.runCall, CmdEv.runCall]).closeCount = 2 ∧
    ¬ (cmdMRun [CmdEv.runCall, CmdEv.runCall]).execCount ≤ 1 := by
  decide

theorem execCount_le_cmdPhi (s : CmdMState) : s.execCount ≤ cmdPhi s := by
  unfold cmdPhi
  omega

theorem cmdPhi_step (s : CmdMState) (e : CmdEv) :
    cmdPhi (cmdMStep s e) ≤
      cmdPhi s + (if e = CmdEv.runCall then 1 else 0) := by
  obtain ⟨st, pe, ec, cc⟩ := s
  cases e <;> cases st <;> cases pe <;>
    simp [cmdMStep, cmdMStart, cmdExecStep, cmdPhi]

theorem cmdPhi_fold (evs : List CmdEv) :
    ∀ s : CmdMState,
      cmdPhi (evs.foldl cmdMStep s) ≤ cmdPhi s + countRun evs := by
  induction evs with
  | nil => intro s; simp [countRun]
  | cons e t ih =>
    intro s
    have h1 := ih (cmdMStep s e)
    have h2 := cmdPhi_step s e
    simp only [List.foldl_cons, countRun]
    omega

theorem countRun_eq_zero (evs : List CmdEv)
    (h : CmdEv.runCall ∉ evs) : countRun evs = 0 := by
  induction evs with
  | nil => rfl
  | cons e t ih =>
    have he : e ≠ CmdEv.runCall := fun hc => h (hc ▸ List.mem_cons_self _ _)
    have ht : CmdEv.runCall ∉ t := fun hc => h (List.mem_cons_of_mem _ hc)
    simp [countRun, he, ih ht]

/-- C2 amended: for every combination of `Start()` and `Wait()`
invocations (and the goroutine they schedule), the body of `execute`
runs at most once on one `cmdImpl` instance; each `Run()` invocation,
however, executes the body once more directly, outside the once-latch,
so a trace with `Run()` calls is bounded only by one latch execution
plus the number of `Run()` calls. -/
theorem cmd_execute_at_most_once_amended (evs : List CmdEv) :
    (CmdEv.runCall ∉ evs → (cmdMRun evs).execCount ≤ 1) ∧
    (cmdMRun evs).execCount ≤ 1 + countRun evs := by
  have hfold := cmdPhi_fold evs cmdMInit
  have hinit : cmdPhi cmdMInit = 1 := rfl
  have hle : (cmdMRun evs).execCount ≤ cmdPhi (cmdMRun evs) :=
    execCount_le_cmdPhi _
  have hrun : cmdPhi (cmdMRun evs) ≤ 1 + countRun evs := by
    unfold cmdMRun
    omega
  refine ⟨fun hnot => ?_, by omega⟩
  have hz := countRun_eq_zero evs hnot
  omega

theorem cmd_execute_at_most_once_amended_witness :
    CmdEv.runCall ∉ [CmdEv.start, CmdEv.grun, CmdEv.waitCall] ∧
    (cmdMRun [CmdEv.start, CmdEv.grun, CmdEv.waitCall]).execCount ≤ 1 :=
  ⟨by decide,
    (cmd_execute_at_most_once_amended
      [CmdEv.start, CmdEv.grun, CmdEv.waitCall]).1 (by decide)⟩

/-- C3 counterexample: a stage whose process exits with the recognized
non-zero code 1 (the repository's own test runs `false`) gets the
`*exec.ExitError` stored verbatim as its error, so `Run()` (and `Wait()`)
return a non-nil error rather than nil; the stage does not report
success. -/
theorem cmd_nonzero_exit_error_cex :
    (cmdRun none ⟨some (GoError.exitError 1), "", ""⟩).2 =
      some (GoError.exitError 1) ∧
    (cmdRun none ⟨some (GoError.exitError 1), "", ""⟩).2 ≠ none ∧
    (cmdRun none ⟨some (GoError.exitError 1), "", ""⟩).1.exitCode = 1 := by
  refine ⟨rfl, ?_, rfl⟩
  decide

/-- C3 amended: for a recognized non-zero exit the stage stores the
normalized exit code in its Result, but the `*exec.ExitError` itself is
also stored and returned: `Run()`/`Wait()` yield that non-nil error, so
the non-zero status is reported both through the exit code and through
the stage's error (matching the repository's own failing-command test,
which expects a non-nil error). -/
theorem cmd_nonzero_exit_error_amended (c : Int) (so se : String) :
    cmdRun none ⟨some (GoError.exitError c), so, se⟩ =
      (⟨c, so, se⟩, some (GoError.exitError c)) := rfl

/-- C4: in a two-stage chain whose upstream completed with a non-nil
error, the downstream stage never spawns its external process, stores the
synthetic result with sentinel exit code -1 and empty output buffers,
stores the upstream's error, and `Wait` on the downstream reports the
upstream's own error. -/
theorem pipeline_short_circuit (uRes : ResultImpl) (uErr : GoError)
    (launch : LaunchOutcome) :
    (cmdExecute (some (uRes, some uErr)) launch).spawned = false ∧
    (cmdExecute (some (uRes, some uErr)) launch).result =
      ⟨-1, "", ""⟩ ∧
    (cmdExecute (some (uRes, some uErr)) launch).err = some uErr ∧
    (cmdWait (some (uRes, some uErr))
      (cmdExecute (some (uRes, some uErr)) launch).result
      (cmdExecute (some (uRes, some uErr)) launch).err).2 = some uErr :=
  ⟨rfl, rfl, rfl, rfl⟩

/-- C5 counterexample: a single stage whose process wrote `hi` to the
captured stdout and then exited with the recognized non-zero code 3 makes
`Wait()` return a non-nil error whose accompanying Result has a non-empty
captured stdout buffer, contradicting the claim that the buffers are
empty whenever the error is non-nil. -/
theorem cmd_wait_err_nonempty_buffers_cex :
    (cmdWait none
      (cmdExecute none ⟨some (GoError.exitError 3), "hi", ""⟩).result
      (cmdExecute none ⟨some (GoError.exitError 3), "hi", ""⟩).err).2 ≠
      none ∧
    (cmdWait none
      (cmdExecute none ⟨some (GoError.exitError 3), "hi", ""⟩).result
      (cmdExecute none ⟨some (GoError.exitError 3), "hi", ""⟩).err).1.stdout
      = "hi" ∧
    (cmdWait none
      (cmdExecute none ⟨some (GoError.exitError 3), "hi", ""⟩).result
      (cmdExecute none ⟨some (GoError.exitError 3), "hi", ""⟩).err).1.stdout
      ≠ "" := by
  refine ⟨?_, rfl, ?_⟩ <;> decide

/-- C5 amended: `Wait` never swallows an error: for a stage without an
upstream it returns the stored pair, whose error is exactly the launch
error and whose Result carries the captured buffer contents of the
failure path (possibly non-empty); only the upstream-short-circuit path
guarantees a stored synthetic result with exit code -1 and empty buffers,
and there `Wait` returns the upstream's own pair. -/
theorem cmd_wait_err_result_amended :
    (∀ l : LaunchOutcome,
      cmdWait none (cmdExecute none l).result (cmdExecute none l).err =
        (⟨normalizeExitCode l.err, l.stdoutBytes, l.stderrBytes⟩, l.err)) ∧
    (∀ (uRes : ResultImpl) (uErr : GoError) (l : LaunchOutcome),
      (cmdExecute (some (uRes, some uErr)) l).result.exitCode = -1 ∧
      (cmdExecute (some (uRes, some uErr)) l).result.stdout = "" ∧
      (cmdExecute (some (uRes, some uErr)) l).result.stderr = "" ∧
      cmdWait (some (uRes, some uErr))
        (cmdExecute (some (uRes, some uErr)) l).result
        (cmdExecute (some (uRes, some uErr)) l).err = (uRes, some uErr)) :=
  ⟨fun _ => rfl, fun _ _ _ => ⟨rfl, rfl, rfl, rfl⟩⟩

/-- C6: `WaitTimeout` derives its timeout scope from the default
background scope regardless of the future's own creation context; when
the timeout branch of the select is taken it invokes `fu.Cancel()` and
returns the zero value of the result type with the timeout error; when
the completion branch is taken it returns the future's own result and
error without cancelling. -/
theorem waitTimeout_spec {T : Type} (zero : T) (d : Nat) (fu : FutObs T)
    (b : Bool) :
    (WaitTimeout zero d fu b).scope = Ctx.withTimeout Ctx.background d ∧
    (∀ fu2 : FutObs T,
      (WaitTimeout zero d fu b).scope = (WaitTimeout zero d fu2 b).scope) ∧
    (b = true → WaitTimeout zero d fu b =
      ⟨zero, some GoError.deadlineExceeded, true,
        Ctx.withTimeout Ctx.background d⟩) ∧
    (b = false →
      (WaitTimeout zero d fu b).retVal = fu.res ∧
      (WaitTimeout zero d fu b).retErr = fu.err ∧
      (WaitTimeout zero d fu b).cancelCalled = false) := by
  cases b with
  | true =>
    refine ⟨rfl, fun _ => rfl, fun _ => rfl, fun h => ?_⟩
    exact absurd h (by decide)
  | false =>
    refine ⟨rfl, fun _ => rfl, fun h => ?_, fun _ => ⟨rfl, rfl, rfl⟩⟩
    exact absurd h (by decide)

theorem waitTimeout_spec_witness :
    WaitTimeout (0 : Nat) 7 ⟨5, none, Ctx.background⟩ true =
      ⟨0, some GoError.deadlineExceeded, true,
        Ctx.withTimeout Ctx.background 7⟩ ∧
    ((WaitTimeout (0 : Nat) 7 ⟨5, some GoError.canceled, Ctx.background⟩
        false).retVal = 5 ∧
     (WaitTimeout (0 : Nat) 7 ⟨5, some GoError.canceled, Ctx.background⟩
        false).retErr = some GoError.canceled ∧
     (WaitTimeout (0 : Nat) 7 ⟨5, some GoError.canceled, Ctx.background⟩
        false).cancelCalled = false) :=
  ⟨(waitTimeout_spec 0 7 ⟨5, none, Ctx.background⟩ true).2.2.1 rfl,
   (waitTimeout_spec 0 7 ⟨5, some GoError.canceled, Ctx.background⟩
      false).2.2.2 rfl⟩

/-- C7: for a stage that reaches its own execution (no upstream, or an
upstream that completed without error), the stored exit code is the
normalization of the launch error: 0 when the process exited
successfully, the process's own exit code on a recognized non-zero exit
(`*exec.ExitError`), and the sentinel -1 for any failure that is not a
clean recognized exit. -/
theorem cmd_exit_code_normalization
    (up : Option (ResultImpl × Option GoError)) (l : LaunchOutcome)
    (hup : up = none ∨ ∃ r : ResultImpl, up = some (r, none)) :
    (cmdExecute up l).spawned = true ∧
    (cmdExecute up l).result.exitCode = normalizeExitCode l.err ∧
    normalizeExitCode none = 0 ∧
    (∀ c : Int, normalizeExitCode (some (GoError.exitError c)) = c) ∧
    (∀ e : GoError, (∀ c : Int, e ≠ GoError.exitError c) →
      normalizeExitCode (some e) = -1) := by
  have hlast : ∀ e : GoError, (∀ c : Int, e ≠ GoError.exitError c) →
      normalizeExitCode (some e) = -1 := by
    intro e he
    cases e with
    | canceled => rfl
    | deadlineExceeded => rfl
    | exitError c => exact absurd rfl (he c)
    | other m => rfl
  rcases hup with h | ⟨r, h⟩ <;> subst h <;>
    exact ⟨rfl, rfl, rfl, fun _ => rfl, hlast⟩

theorem cmd_exit_code_normalization_witness :
    (cmdExecute none ⟨some (GoError.exitError 3), "out", ""⟩).spawned =
      true ∧
    (cmdExecute none
      ⟨some (GoError.exitError 3), "out", ""⟩).result.exitCode =
      normalizeExitCode (some (GoError.exitError 3)) :=
  ⟨(cmd_exit_code_normalization none
      ⟨some (GoError.exitError 3), "out", ""⟩ (Or.inl rfl)).1,
   (cmd_exit_code_normalization none
      ⟨some (GoError.exitError 3), "out", ""⟩ (Or.inl rfl)).2.1⟩

theorem futStart_of_started {T : Type} (s : FutState T)
    (h : s.started = true) : futStart s = (s, s.id) := by
  simp [futStart, h]

theorem futStartIter_of_started {T : Type} (s : FutState T)
    (h : s.started = true) : ∀ n : Nat, futStartIter n s = s := by
  intro n
  induction n with
  | zero => rfl
  | succ m ih =>
    show futStartIter m (futStart s).1 = s
    rw [futStart_of_started s h]
    exact ih

theorem futInv_step {T : Type} (s : FutState T) (e : FutEv)
    (h : futInv s) : futInv (futStep s e) := by
  obtain ⟨h1, h2, h3⟩ := h
  cases e with
  | start =>
    show futInv (futStart s).1
    rw [futStart_of_started s h1]
    exact ⟨h1, h2, h3⟩
  | cancel => exact ⟨h1, h2, h3⟩
  | grun =>
    show futInv (if s.pending then _ else s)
    by_cases hp : s.pending
    · rw [if_pos hp]
      refine ⟨h1, h2, ?_⟩
      rw [hp] at h3
      simpa using h3
    · rw [if_neg hp]
      exact ⟨h1, h2, h3⟩

theorem futInv_run {T : Type} (evs : List FutEv) :
    ∀ s : FutState T, futInv s → futInv (futRun s evs) := by
  induction evs with
  | nil => intro s h; exact h
  | cons e t ih =>
    intro s h
    exact ih (futStep s e) (futInv_step s e h)

/-- C8: on a base future, only the first of any `n ≥ 1` `Start()` calls
schedules the task specification (one goroutine spawn), every subsequent
call is a no-op leaving the state exactly as after the first call, every
call returns the receiver's own handle, and however the scheduler
interleaves further events the `execute` body runs at most once. -/
theorem future_start_idempotent {T : Type} (i : Nat)
    (fn : Bool → T × Option GoError) (n : Nat) (hn : 1 ≤ n) :
    futStartIter n (newFut i fn) = (futStart (newFut i fn)).1 ∧
    (futStartIter n (newFut i fn)).schedCount = 1 ∧
    (∀ s : FutState T, (futStart s).2 = s.id ∧ (futStart s).1.id = s.id) ∧
    (∀ evs : List FutEv,
      (futRun (futStartIter n (newFut i fn)) evs).execCount ≤ 1 ∧
      (futRun (futStartIter n (newFut i fn)) evs).schedCount = 1) := by
  have hstarted : ((futStart (newFut i fn)).1).started = true := rfl
  have hiter : futStartIter n (newFut i fn) = (futStart (newFut i fn)).1 := by
    cases n with
    | zero => omega
    | succ m =>
      show futStartIter m (futStart (newFut i fn)).1 = _
      exact futStartIter_of_started _ hstarted m
  have hinv : futInv ((futStart (newFut i fn)).1) := by
    refine ⟨hstarted, rfl, ?_⟩
    show 0 + (if true then 1 else 0) ≤ 1
    simp
  refine ⟨hiter, by rw [hiter]; rfl, ?_, ?_⟩
  · intro s
    by_cases h : s.started = true
    · rw [futStart_of_started s h]
      exact ⟨rfl, rfl⟩
    · have h2 : s.started = false := by simpa using h
      constructor <;> simp [futStart, h2]
  · intro evs
    rw [hiter]
    have h := futInv_run evs ((futStart (newFut i fn)).1) hinv
    obtain ⟨_, hs, he⟩ := h
    constructor
    · by_cases hp : (futRun ((futStart (newFut i fn)).1) evs).pending
      · rw [hp] at he; simpa using Nat.le_of_lt_succ (by omega)
      · simp only [hp] at he
        simpa using he
    · exact hs

theorem future_start_idempotent_witness :
    1 ≤ 3 ∧
    (futStartIter 3 (newFut 0 (fun _ => ((0 : Nat), none)))).schedCount
      = 1 ∧
    (futRun (futStartIter 3 (newFut 0 (fun _ => ((0 : Nat), none))))
      [FutEv.grun, FutEv.start, FutEv.grun]).execCount ≤ 1 :=
  ⟨by decide,
   (future_start_idempotent 0 (fun _ => ((0 : Nat), none)) 3
      (by decide)).2.1,
   ((future_start_idempotent 0 (fun _ => ((0 : Nat), none)) 3
      (by decide)).2.2.2 [FutEv.grun, FutEv.start, FutEv.grun]).1⟩

theorem futFresh_step {T : Type} (s : FutState T) (e : FutEv)
    (hev : e ≠ FutEv.start) (h : futFresh s) : futFresh (futStep s e) := by
  obtain ⟨h1, h2, h3, h4, h5⟩ := h
  cases e with
  | start => exact absurd rfl hev
  | cancel => exact ⟨h1, h2, h3, h4, h5⟩
  | grun =>
    show futFresh (if s.pending then _ else s)
    rw [h3]
    simpa using ⟨h1, h2, h3, h4, h5⟩

/-- C9: a base future created by `New` on which `Start` was never
invoked never executes its task body under any interleaving of the
remaining events, never closes its completion channel, and `Wait()`
therefore blocks forever (modelled as the blocked observation `none`);
`Wait` performs no implicit `Start` (the latch stays untouched and no
goroutine is ever spawned). -/
theorem future_wait_no_implicit_start {T : Type} (i : Nat)
    (fn : Bool → T × Option GoError) (evs : List FutEv)
    (hev : FutEv.start ∉ evs) :
    (futRun (newFut i fn) evs).execCount = 0 ∧
    (futRun (newFut i fn) evs).schedCount = 0 ∧
    (futRun (newFut i fn) evs).doneClosed = false ∧
    futWaitObs (futRun (newFut i fn) evs) = none := by
  have key : ∀ (l : List FutEv) (s : FutState T), FutEv.start ∉ l →
      futFresh s → futFresh (futRun s l) := by
    intro l
    induction l with
    | nil => intro s _ h; exact h
    | cons e t ih =>
      intro s hmem h
      have he : e ≠ FutEv.start := fun hc =>
        hmem (hc ▸ List.mem_cons_self _ _)
      have ht : FutEv.start ∉ t := fun hc =>
        hmem (List.mem_cons_of_mem _ hc)
      exact ih (futStep s e) ht (futFresh_step s e he h)
  have hfresh : futFresh (newFut i fn) := ⟨rfl, rfl, rfl, rfl, rfl⟩
  obtain ⟨_, h2, _, h4, h5⟩ := key evs (newFut i fn) hev hfresh
  exact ⟨h4, h2, h5, by simp [futWaitObs, h5]⟩

theorem future_wait_no_implicit_start_witness :
    FutEv.start ∉ [FutEv.cancel, FutEv.grun] ∧
    ((futRun (newFut 0 (fun _ => ((0 : Nat), none)))
        [FutEv.cancel, FutEv.grun]).execCount = 0 ∧
     (futRun (newFut 0 (fun _ => ((0 : Nat), none)))
        [FutEv.cancel, FutEv.grun]).schedCount = 0 ∧
     (futRun (newFut 0 (fun _ => ((0 : Nat), none)))
        [FutEv.cancel, FutEv.grun]).doneClosed = false ∧
     futWaitObs (futRun (newFut 0 (fun _ => ((0 : Nat), none)))
        [FutEv.cancel, FutEv.grun]) = none) :=
  ⟨by decide,
   future_wait_no_implicit_start 0 (fun _ => ((0 : Nat), none))
     [FutEv.cancel, FutEv.grun] (by decide)⟩

/-- C10: adding an option with an empty flag string through `OptB` or
`OptV` is silently ignored: the builder is left unchanged, so its
`Items()` output is unchanged and no command-line items are
contributed. -/
theorem builder_empty_flag_ignored (b : Builder) (v : String) :
    (b.OptB "").Items = b.Items ∧
    (b.OptV "" v).Items = b.Items ∧
    b.OptB "" = b ∧
    b.OptV "" v = b := by
  have h1 : b.OptB "" = b := by simp [Builder.OptB]
  have h2 : b.OptV "" v = b := by simp [Builder.OptV]
  exact ⟨by rw [h1], by rw [h2], h1, h2⟩
